import Mathlib

/-!
Verification development for the amazon-price-bot repository.

The Python sources (`util.py`, `watcher.py`, `models.py`, `handlers.py`) are
shallowly embedded below.  Monetary amounts and timestamps, `float` in the
source, are modelled as exact rationals (`ℚ`); none of the verified claims
depends on binary floating-point rounding.  Python's `round(x, 2)` is modelled
by `round2` (round half towards `+∞`; Python uses round-half-even, but the two
agree everywhere the claims look, and all lemmas used about `round2` —
monotonicity, fixing 2-decimal values — hold for either convention).
Network and filesystem effects are modelled by explicit oracles and states.
-/

namespace PriceBot

/-! ### util.py — rounding helper for Python round(x, 2) -/

def round2 (x : ℚ) : ℚ := (⌊x * 100 + 1/2⌋ : ℤ) / 100

/-! ### util.py — PriceData and the mock price source

`PriceData` mirrors the frozen dataclass in `util.py`; `mock_prices_from_asin`
is the deterministic fallback price generator (`base = sum(ord(c) for c in asin)`).
-/

structure PriceData where
  price_now : ℚ
  lowest_90 : ℚ
  avg_90 : ℚ
  max_90 : ℚ
  forecast_7d : ℚ
  lo_7d : ℚ
  hi_7d : ℚ
  likely_days : ℕ
  state : String
  advice : String
  deriving DecidableEq

def mock_prices_from_asin (asin : String) : PriceData :=
  let base : ℕ := (asin.data.map Char.toNat).sum
  let price_now : ℚ := round2 (199/10 + ((base % 280 : ℕ) : ℚ) + ((base % 9 : ℕ) : ℚ) * (1/10))
  let pct : ℚ := 5/100 + ((base % 26 : ℕ) : ℚ) / 100
  let lowest_90 : ℚ := round2 (price_now * (1 - pct))
  let avg_90 : ℚ := round2 ((price_now + lowest_90) / 2)
  let max_90 : ℚ := round2 (max price_now avg_90 * (105/100))
  let forecast : ℚ := round2 (price_now * (98/100))
  let lo : ℚ := round2 (max lowest_90 (forecast * (97/100)))
  let hi : ℚ := round2 (min max_90 (forecast * (103/100)))
  let likely_days : ℕ := 1 + base % 7
  { price_now := price_now, lowest_90 := lowest_90, avg_90 := avg_90, max_90 := max_90,
    forecast_7d := forecast, lo_7d := lo, hi_7d := hi, likely_days := likely_days,
    state := "MONITOR",
    advice := "💡 Consiglio: imposta una soglia raggiungibile e lasciami monitorare." }

/-! ### util.py — Keepa stats parsing (`_keepa_price_to_eur`, `_safe_get`,
`_series_value`, `_pick_consistent_series`)

Keepa stats arrays may be shorter than expected and may hold nulls, so an
array is a `List (Option ℤ)`; `safeGet` returns `none` both out of range and
on a null entry, exactly like the `try/except` + `None` flow of the source.
`pick_consistent_series` returns `Except` where the source raises
`RuntimeError`.
-/

structure KeepaStats90 where
  current : ℚ
  min90 : ℚ
  avg90 : ℚ
  max90 : ℚ
  series : String
  deriving DecidableEq

def keepa_price_to_eur : Option ℤ → Option ℚ
  | none => none
  | some v => if v ≤ 0 then none else some (round2 ((v : ℚ) / 100))

def safeGet (arr : List (Option ℤ)) (idx : ℕ) : Option ℤ :=
  (arr.get? idx).getD none

def series_value (arr : List (Option ℤ)) (idx_amazon idx_new : ℕ) :
    Option ℚ × Option ℚ :=
  (keepa_price_to_eur (safeGet arr idx_amazon), keepa_price_to_eur (safeGet arr idx_new))

structure KeepaStatsRaw where
  current : List (Option ℤ)
  minArr : List (Option ℤ)
  avgArr : List (Option ℤ)
  maxArr : List (Option ℤ)

/-- The tail of `_pick_consistent_series` once a series has been chosen: the
coherence fix-ups (`if av < mn: av = mn`, `if mx < av: mx = av`), the
`cur <= 0` guard, and the final rounding. -/
def coherence_fixups (series : String) (cur mn avv mxx : ℚ) :
    Except String KeepaStats90 :=
  let av2 := if avv < mn then mn else avv
  let mx2 := if mxx < av2 then av2 else mxx
  if cur ≤ 0 then .error "Invalid current price"
  else .ok { current := round2 cur, min90 := round2 mn, avg90 := round2 av2,
             max90 := round2 mx2, series := series }

def pick_consistent_series (stats : KeepaStatsRaw) : Except String KeepaStats90 :=
  let idx_amazon := 0
  let idx_new := 1
  let ca := series_value stats.current idx_amazon idx_new
  let mi := series_value stats.minArr idx_amazon idx_new
  let av := series_value stats.avgArr idx_amazon idx_new
  let mx := series_value stats.maxArr idx_amazon idx_new
  let picked : Option (String × ℚ × ℚ × ℚ × ℚ) :=
    match ca.2 with
    | some cur =>
        let mn := (mi.2).getD cur
        let avv := (av.2).getD cur
        let mxx := (mx.2).getD (max cur (max avv mn))
        some ("NEW", cur, mn, avv, mxx)
    | none =>
        match ca.1 with
        | some cur =>
            let mn := (mi.1).getD cur
            let avv := (av.1).getD cur
            let mxx := (mx.1).getD (max cur (max avv mn))
            some ("AMAZON", cur, mn, avv, mxx)
        | none => none
  match picked with
  | none => .error "No current price available (neither NEW nor AMAZON)"
  | some (series, cur, mn, avv, mxx) => coherence_fixups series cur mn avv mxx

/-! ### util.py — `_price_band_targets` and `_classify_and_recommend` -/

def price_band_targets (cur : ℚ) : ℚ × ℚ :=
  if cur ≤ 30 then (2, 6/100)
  else if cur ≤ 150 then (7, 5/100)
  else if cur ≤ 1000 then (30, 35/1000)
  else (100, 25/1000)

structure ClassifyResult where
  state : String
  advice : String
  rec_thr : ℚ
  rec_days : ℕ
  saving_pct : ℚ
  forecast : ℚ
  lo : ℚ
  hi : ℚ
  likely_days : ℕ

def classify_and_recommend (cur mn av mx : ℚ) : ClassifyResult :=
  let spread := max 0 (mx - mn)
  let rel_spread := if 0 < cur then spread / cur else 0
  let sa : String × String :=
    if cur ≤ mn * (101/100) then
      ("GOOD_NOW",
       "✅ Questo è già uno dei prezzi migliori recenti. Se ti serve davvero, valuta di comprarlo ora. Se vuoi tentare il colpo, puoi comunque monitorarlo.")
    else if rel_spread < 2/100 then
      ("RIGID",
       "📊 Prezzo molto stabile: potrebbe offrire poche occasioni. Se non scende mai, valuta anche prodotti simili/alternativi nella stessa categoria.")
    else
      ("MONITOR", "💡 Consiglio: imposta una soglia raggiungibile e lasciami monitorare.")
  let k : ℚ := 35/100
  let forecast := cur - k * (cur - av)
  let band := max (cur * (1/100)) (max (spread * (18/100)) 1)
  let lo := max mn (forecast - band)
  let hi := min mx (forecast + band)
  let likely_days : ℕ :=
    if sa.1 = "GOOD_NOW" then 7
    else if cur ≤ av * (102/100) then 3
    else if cur ≤ av * (108/100) then 5
    else 7
  let bt := price_band_targets cur
  let min_drop := max bt.1 (cur * bt.2)
  let td : ℚ × ℕ :=
    if av * (107/100) < cur then (av, 5)
    else if av * (103/100) < cur then (av * (99/100), 4)
    else (cur - min_drop, 3)
  let target2 := max td.1 (mn * (101/100))
  let target3 := min target2 (cur - min_drop)
  let td2 : ℚ × ℕ :=
    if sa.1 = "RIGID" then (max target3 (cur - max bt.1 (cur * (3/100))), 7)
    else (target3, td.2)
  let target5 := if td2.1 < 1/100 then 1/100 else td2.1
  let target6 := if cur ≤ target5 then max (1/100) (cur - bt.1) else target5
  let saving_pct := if 0 < cur then (cur - target6) / cur * 100 else 0
  { state := sa.1, advice := sa.2, rec_thr := round2 target6, rec_days := td2.2,
    saving_pct := saving_pct, forecast := round2 forecast, lo := round2 lo,
    hi := round2 hi, likely_days := likely_days }

/-! ### util.py — `get_price_data`

The upstream interaction of `_get_keepa_stats_90` (HTTP call, JSON parse,
`products[]`/`stats` extraction, `_pick_consistent_series`) is modelled by an
oracle `fetch : Except String KeepaStats90`: `.error` covers every
`RuntimeError` path (timeout, non-200 status, JSON parse failure, empty
products, missing stats, no usable series, invalid price).  The source wraps
that whole interaction in `try/except` and falls back to the mock generator.
-/

def get_price_data (useKeepa hasKey : Bool) (fetch : Except String KeepaStats90)
    (asin : String) : PriceData :=
  if useKeepa && hasKey then
    match fetch with
    | .ok st =>
        let r := classify_and_recommend st.current st.min90 st.avg90 st.max90
        { price_now := st.current, lowest_90 := st.min90, avg_90 := st.avg90,
          max_90 := st.max90, forecast_7d := r.forecast, lo_7d := r.lo, hi_7d := r.hi,
          likely_days := r.likely_days, state := r.state, advice := r.advice }
    | .error _ => mock_prices_from_asin asin
  else mock_prices_from_asin asin

/-! ### Data model — a watch record (`models.py` / `watcher.py`)

A watch is a Python dict.  Keys read with `.get` defaults are modelled with
those defaults baked in: a missing `last_checked_price`/`last_notified_price`
is `none`, a missing `last_checked_ts`/`last_notified_ts` is `0`, a missing
`asin`/`name` is `""` (both are used only through truthiness and `=`
comparisons against non-empty strings, so `""` and a missing key behave
identically everywhere the embedded code looks).
-/

structure Watch where
  asin : String
  name : String
  threshold : Option ℚ
  last_notified_price : Option ℚ
  last_notified_ts : ℚ
  last_checked_price : Option ℚ
  last_checked_ts : ℚ
  deriving DecidableEq

/-- The persistent store: `WATCHES`, a dict from chat id to list of watches,
modelled as an association list whose keys are unique (dict semantics). -/
abbrev StoreState := List (Int × List Watch)

/-! ### watcher.py — constants and `_priority_bucket` -/

def maxChecksPerTick : ℕ := 40

def notifyCooldownSeconds : ℚ := 12 * 3600

/-- `age` as computed at the top of `_priority_bucket`: a falsy
`last_checked_ts` (never checked) becomes the fixed sentinel `10^12`,
otherwise `max(0, now - last_checked_ts)`. -/
def ageOf (now_ts last_checked_ts : ℚ) : ℚ :=
  if last_checked_ts = 0 then 10^12 else max 0 (now_ts - last_checked_ts)

def priority_bucket (last_price : Option ℚ) (threshold now_ts last_checked_ts : ℚ) :
    ℕ × ℚ :=
  let age := ageOf now_ts last_checked_ts
  match last_price with
  | none => (2, -age)
  | some p =>
      let gap := if threshold = 0 then 999 else (p - threshold) / threshold
      let bucket : ℕ :=
        if p ≤ threshold ∨ gap ≤ 1/100 then 0
        else if gap ≤ 5/100 then 1
        else if gap ≤ 15/100 then 2
        else 3
      (bucket, -age)

/-- Strict lexicographic order on priority keys: the order in which Python
compares the `(bucket, -age)` tuples.  A stable sort puts `a` before `b`
regardless of input order exactly when `keyLt a b`. -/
def keyLt (a b : ℕ × ℚ) : Prop := a.1 < b.1 ∨ (a.1 = b.1 ∧ a.2 < b.2)

/-- Non-strict tuple comparison used as the sorting relation. -/
def keyLe (a b : ℕ × ℚ) : Bool :=
  decide (a.1 < b.1 ∨ (a.1 = b.1 ∧ a.2 ≤ b.2))

/-! ### watcher.py — notification step of `run_price_check_iteration`
(lines 135–195, the body of the per-watch loop)

`processWatch now price_now threshold w` returns the updated watch, the
number of notifications sent for it, and the number of `save_state()` calls
made inside the loop body for it.  The transport (`bot.send_message`) is
modelled as always succeeding, as in the source no failure handling wraps it.
-/

def shouldNotify (last_price : Option ℚ) (price_now : ℚ) : Bool :=
  match last_price with
  | none => true
  | some q => decide (q ≠ price_now)

def justChecked (w : Watch) (price_now now : ℚ) : Watch :=
  { w with last_checked_price := some price_now, last_checked_ts := now }

def processWatch (now price_now threshold : ℚ) (w : Watch) : Watch × ℕ × ℕ :=
  let w1 := justChecked w price_now now
  -- Anti-spam: almeno 12 ore tra le notifiche
  if now - w1.last_notified_ts < notifyCooldownSeconds then (w1, 0, 0)
  else
    let delta := price_now - threshold
    -- Caso 1: sotto soglia
    if price_now ≤ threshold then
      if shouldNotify w1.last_notified_price price_now then
        ({ w1 with last_notified_price := some price_now, last_notified_ts := now }, 1, 1)
      else (w1, 0, 0)
    -- Caso 2: quasi sotto soglia (entro 1% del prezzo corrente)
    else if 0 < delta ∧ delta ≤ price_now * (1/100) then
      if shouldNotify w1.last_notified_price price_now then
        ({ w1 with last_notified_price := some price_now, last_notified_ts := now }, 1, 1)
      else (w1, 0, 0)
    else (w1, 0, 0)

/-! ### watcher.py — candidate building and selection (lines 93–125) -/

structure Candidate where
  score : ℕ × ℚ
  idx : ℕ
  chat : Int
  asin : String
  threshold : ℚ
  deriving DecidableEq

/-- `WATCHES.items()` flattened in iteration order (dict order, then list
order); positions identify the mutable dict references. -/
def flattenState : StoreState → List (Int × Watch)
  | [] => []
  | (c, ws) :: rest => ws.map (fun w => (c, w)) ++ flattenState rest

/-- Lines 97–117: keep watches with a numeric threshold and a truthy asin,
computing each one's priority score. -/
def buildCandidates (now : ℚ) (flat : List (Int × Watch)) : List Candidate :=
  flat.enum.filterMap (fun e =>
    match e.2.2.threshold with
    | none => none
    | some t =>
        if e.2.2.asin = "" then none
        else some { score := priority_bucket e.2.2.last_checked_price t now e.2.2.last_checked_ts,
                    idx := e.1, chat := e.2.1, asin := e.2.2.asin, threshold := t })

/-- Lines 124–125: `candidates.sort(key=lambda x: x[0])` (stable, keyed by the
score tuple) followed by `candidates[:MAX_CHECKS_PER_TICK]`. -/
def selectCandidates (cands : List Candidate) : List Candidate :=
  (cands.mergeSort (fun a b => keyLe a.score b.score)).take maxChecksPerTick

/-- The price read at watcher.py:137, exactly as written:
`price_now = get_price_data(asin).price_now` with no `await`.
`get_price_data` is `async def` (util.py:369), so the bare call returns a
coroutine object, and reading `.price_now` off it raises `AttributeError` —
deterministically, for every asin, before any price is obtained.  The raised
exception is the `Except.error` value. -/
def price_now_read (_asin : String) : Except String ℚ :=
  .error "AttributeError: coroutine object has no attribute price_now"

/-- Lines 135–195: the per-watch loop, threading the shared store through the
in-place dict mutations.  Returns the store and the accumulated
(notifications, in-loop saves) performed before any raised exception, plus
the exception if one aborted the loop: side effects already performed are
kept, and the `AttributeError` from `price_now_read` occurs before the cache
writes of lines 140–141, so the crashing watch is not mutated. -/
def processSelected (now : ℚ) :
    List Candidate → List (Int × Watch) → (List (Int × Watch) × ℕ × ℕ) × Option String
  | [], flat => ((flat, 0, 0), none)
  | c :: rest, flat =>
      match flat.get? c.idx with
      | none => processSelected now rest flat
      | some (chat, w) =>
          match price_now_read c.asin with
          | .error e => ((flat, 0, 0), some e)
          | .ok pn =>
              let r := processWatch now pn c.threshold w
              let flat2 := flat.set c.idx (chat, r.1)
              let rec2 := processSelected now rest flat2
              ((rec2.1.1, r.2.1 + rec2.1.2.1, r.2.2 + rec2.1.2.2), rec2.2)

/-- One full tick of `run_price_check_iteration`.  Returns ((final flattened
store, notifications sent, `save_state()` calls), raised exception).  Lines
119–121: with no candidates the function returns early, before any save;
line 198: the final unconditional `save_state()` runs only when the loop
completed without raising — an exception propagates out of the `async def`
and skips it. -/
def runIteration (now : ℚ) (st : StoreState) :
    (List (Int × Watch) × ℕ × ℕ) × Option String :=
  let flat := flattenState st
  let cands := buildCandidates now flat
  if cands = [] then ((flat, 0, 0), none)
  else
    let r := processSelected now (selectCandidates cands) flat
    match r.2 with
    | some e => (r.1, some e)
    | none => ((r.1.1, r.1.2.1, r.1.2.2 + 1), none)

/-! ### models.py — dict helpers on the association-list store -/

/-- First binding for a chat id, if any (`WATCHES.get(chat_id)`). -/
def lookupChat? (st : StoreState) (chat : Int) : Option (List Watch) :=
  (st.find? (fun e => e.1 == chat)).map (·.2)

/-- `WATCHES.get(chat_id, [])`. -/
def lookupChat (st : StoreState) (chat : Int) : List Watch :=
  (lookupChat? st chat).getD []

/-- `WATCHES[chat_id] = ws`: replace the binding if present, else append. -/
def dictSet (chat : Int) (ws : List Watch) (st : StoreState) : StoreState :=
  if st.any (fun e => e.1 == chat) then
    st.map (fun e => if e.1 == chat then (e.1, ws) else e)
  else st ++ [(chat, ws)]

/-- `WATCHES.setdefault(chat_id, [])`. -/
def setdefaultChat (chat : Int) (st : StoreState) : StoreState :=
  if st.any (fun e => e.1 == chat) then st else st ++ [(chat, [])]

/-- Apply `f` to the binding of `chat` (used for in-place mutation of
`WATCHES[chat_id]` after a `setdefault`). -/
def mapChat (chat : Int) (f : List Watch → List Watch) (st : StoreState) : StoreState :=
  st.map (fun e => if e.1 == chat then (e.1, f e.2) else e)

/-! ### models.py — `ensure_watch` (lines 150–174) -/

def newWatchEnsure (asin : String) (name : Option String) : Watch :=
  { asin := asin, threshold := none, last_notified_ts := 0, last_notified_price := none,
    name := name.getD "", last_checked_price := none, last_checked_ts := 0 }

/-- The scan loop of `ensure_watch`: on the first asin match, update the name
when the argument is truthy and the stored name falsy, and report the match. -/
def ensureList (asin : String) (name : Option String) : List Watch → List Watch × Bool
  | [] => ([], false)
  | w :: ws =>
      if w.asin = asin then
        ((if name.getD "" ≠ "" ∧ w.name = "" then { w with name := name.getD "" } else w) :: ws,
         true)
      else
        let r := ensureList asin name ws
        (w :: r.1, r.2)

def ensure_watch (chat : Int) (asin : String) (name : Option String) (st : StoreState) :
    StoreState :=
  let st1 := setdefaultChat chat st
  mapChat chat (fun ws =>
    let r := ensureList asin name ws
    if r.2 then r.1 else r.1 ++ [newWatchEnsure asin name]) st1

/-! ### models.py — `set_or_update_watch` (lines 177–212) -/

def newWatchSet (asin : String) (threshold : Option ℚ) (name : Option String) : Watch :=
  { asin := asin, threshold := threshold, last_notified_ts := 0, last_notified_price := none,
    name := name.getD "", last_checked_price := none, last_checked_ts := 0 }

/-- The scan loop of `set_or_update_watch`: on the first asin match, set the
threshold, set the name when given, and reset the notification baseline. -/
def updateWatchList (asin : String) (threshold : Option ℚ) (name : Option String) :
    List Watch → List Watch × Bool
  | [] => ([], false)
  | w :: ws =>
      if w.asin = asin then
        ({ w with threshold := threshold, name := name.getD w.name,
                  last_notified_ts := 0, last_notified_price := none } :: ws, true)
      else
        let r := updateWatchList asin threshold name ws
        (w :: r.1, r.2)

def set_or_update_watch (chat : Int) (asin : String) (threshold : Option ℚ)
    (name : Option String) (st : StoreState) : StoreState :=
  let st1 := setdefaultChat chat st
  mapChat chat (fun ws =>
    let r := updateWatchList asin threshold name ws
    if r.2 then r.1 else r.1 ++ [newWatchSet asin threshold name]) st1

/-! ### handlers.py — `cb_delete` (lines 268–277): the only deletion path. -/

def delete_watch (chat : Int) (asin : String) (st : StoreState) : StoreState :=
  dictSet chat ((lookupChat st chat).filter (fun w => w.asin ≠ asin)) st

/-! ### models.py — `load_state` normalization (lines 67–92)

A raw on-disk watch record: the four keys that `load_state` backfills are
optional (`none` = key absent in the JSON object); `asin` and the
`last_checked_*` keys are passed through untouched (absent modelled by their
read-time defaults, see `Watch`).  Raw chat keys are the results of
`int(chat_id_str)` and may therefore repeat; `fixed[chat_id] = []` gives the
last occurrence dict-replace semantics, modelled by `dictSet`-style insertion.
-/

structure RawWatch where
  asin : String
  name : Option String
  threshold : Option (Option ℚ)
  last_notified_price : Option (Option ℚ)
  last_notified_ts : Option ℚ
  last_checked_price : Option ℚ
  last_checked_ts : ℚ
  deriving DecidableEq

def normWatch (r : RawWatch) : Watch :=
  { asin := r.asin, name := r.name.getD "", threshold := r.threshold.getD none,
    last_notified_price := r.last_notified_price.getD none,
    last_notified_ts := r.last_notified_ts.getD 0,
    last_checked_price := r.last_checked_price, last_checked_ts := r.last_checked_ts }

abbrev RawDoc := List (Int × List RawWatch)

def dictInsert (chat : Int) (ws : List Watch) (st : StoreState) : StoreState :=
  if st.any (fun e => e.1 == chat) then
    st.map (fun e => if e.1 == chat then (e.1, ws) else e)
  else st ++ [(chat, ws)]

def load_state (raw : RawDoc) : StoreState :=
  raw.foldl (fun acc e => dictInsert e.1 (e.2.map normWatch) acc) []

/-! ### models.py — `save_state` (lines 95–128) and the durable files

The filesystem holds three paths: `watches.json` (main), `watches.bak.json`
(backup) and `watches.tmp` (temporary).  A file is either a well-formed
serialized document or corrupt (partial write / unparsable JSON).  A
completed `save_state` is the step list `[backup, writeTmp, renameTmp]`; a
crash interrupts the list anywhere, and an interruption in the middle of a
`copy2` or `json.dump` is the corresponding `Torn` step (a torn `replace` is
excluded: `Path.replace` is an atomic rename).  `serialize` is the JSON dump
of an in-memory state: every key is written, so reading it back is exact. -/

inductive FileData where
  | good (doc : RawDoc)
  | corrupt
  deriving DecidableEq

structure FsState where
  main : Option FileData
  bak : Option FileData
  tmp : Option FileData
  deriving DecidableEq

def serializeWatch (w : Watch) : RawWatch :=
  { asin := w.asin, name := some w.name, threshold := some w.threshold,
    last_notified_price := some w.last_notified_price,
    last_notified_ts := some w.last_notified_ts,
    last_checked_price := w.last_checked_price, last_checked_ts := w.last_checked_ts }

def serialize (st : StoreState) : RawDoc :=
  st.map (fun e => (e.1, e.2.map serializeWatch))

inductive SaveStep where
  | backup
  | backupTorn
  | writeTmp
  | writeTmpTorn
  | renameTmp
  deriving DecidableEq

def applySaveStep (st : StoreState) (fs : FsState) : SaveStep → FsState
  | .backup => if fs.main.isSome then { fs with bak := fs.main } else fs
  | .backupTorn => if fs.main.isSome then { fs with bak := some .corrupt } else fs
  | .writeTmp => { fs with tmp := some (.good (serialize st)) }
  | .writeTmpTorn => { fs with tmp := some .corrupt }
  | .renameTmp =>
      match fs.tmp with
      | some d => { fs with main := some d, tmp := none }
      | none => fs

def runSaveSteps (st : StoreState) (fs : FsState) (steps : List SaveStep) : FsState :=
  steps.foldl (applySaveStep st) fs

/-- The step list of an uninterrupted `save_state`. -/
def fullSave : List SaveStep := [.backup, .writeTmp, .renameTmp]

/-- `load_state`'s file access (lines 42–65): missing main file → empty state
(no backup attempt); unparsable main → try the backup; unparsable or missing
backup → empty state.  A readable document is then normalized. -/
def loadFromFs (fs : FsState) : StoreState :=
  match fs.main with
  | none => []
  | some (.good d) => load_state d
  | some .corrupt =>
      match fs.bak with
      | some (.good d) => load_state d
      | _ => []

/-! ### Store invariant — identity of a watch is `(chat_id, asin)` -/

/-- Well-formed store: chat keys are unique (dict) and within each chat no
two watches share an asin. -/
def StateWF (st : StoreState) : Prop :=
  (st.map Prod.fst).Nodup ∧ ∀ e ∈ st, ((e.2).map Watch.asin).Nodup

/-! ## Shared helper lemmas -/

theorem round2_fix (x : ℚ) (v : ℤ) (h : x * 100 = v) : round2 x = x := by
  have h2 : (⌊x * 100 + 1/2⌋ : ℤ) = v := by
    rw [h, Int.floor_eq_iff]
    constructor
    · norm_num
    · norm_num
  rw [round2, h2]
  field_simp at h ⊢
  linarith

theorem round2_mono {x y : ℚ} (h : x ≤ y) : round2 x ≤ round2 y := by
  unfold round2
  have hf := Int.floor_mono (α := ℚ) (show x * 100 + 1/2 ≤ y * 100 + 1/2 by nlinarith)
  have h100 : (0:ℚ) < 100 := by norm_num
  rw [div_le_div_iff₀ h100 h100]
  have : ((⌊x * 100 + 1/2⌋ : ℤ) : ℚ) ≤ ((⌊y * 100 + 1/2⌋ : ℤ) : ℚ) := by exact_mod_cast hf
  nlinarith [this]

theorem keyLe_trans (a b c : ℕ × ℚ) (h1 : keyLe a b = true) (h2 : keyLe b c = true) :
    keyLe a c = true := by
  simp only [keyLe, decide_eq_true_eq] at *
  rcases h1 with h1 | ⟨h1, h1'⟩ <;> rcases h2 with h2 | ⟨h2, h2'⟩
  · exact Or.inl (h1.trans h2)
  · exact Or.inl (h2 ▸ h1)
  · exact Or.inl (h1 ▸ h2)
  · exact Or.inr ⟨h1.trans h2, h1'.trans h2'⟩

theorem keyLe_total (a b : ℕ × ℚ) : (keyLe a b || keyLe b a) = true := by
  simp only [keyLe, Bool.or_eq_true, decide_eq_true_eq]
  rcases lt_trichotomy a.1 b.1 with h | h | h
  · exact Or.inl (Or.inl h)
  · rcases le_total a.2 b.2 with h' | h'
    · exact Or.inl (Or.inr ⟨h, h'⟩)
    · exact Or.inr (Or.inr ⟨h.symm, h'⟩)
  · exact Or.inr (Or.inl h)

/-- Step 1 of the notification state machine always happens: the freshly
fetched price and `now` are written to the staleness cache fields in every
branch of the per-watch loop body. -/
theorem processWatch_checked (now p t : ℚ) (w : Watch) :
    (processWatch now p t w).1.last_checked_price = some p
    ∧ (processWatch now p t w).1.last_checked_ts = now := by
  unfold processWatch justChecked
  dsimp only
  split_ifs <;> simp

/-- The cooldown branch: no notification, no save, only the checked fields move. -/
theorem processWatch_cooldown_eq (now p t : ℚ) (w : Watch)
    (h : now - w.last_notified_ts < notifyCooldownSeconds) :
    processWatch now p t w = (justChecked w p now, 0, 0) := by
  unfold processWatch
  rw [if_pos]
  exact h

/-- Past the cooldown, a price in the notification band with a changed (or
absent) baseline notifies exactly once and commits the new baseline. -/
theorem processWatch_notify_eq (now p t : ℚ) (w : Watch)
    (hcool : ¬ now - w.last_notified_ts < notifyCooldownSeconds)
    (hband : p ≤ t ∨ (0 < p - t ∧ p - t ≤ p * (1/100)))
    (hsn : shouldNotify w.last_notified_price p = true) :
    processWatch now p t w =
      ({ justChecked w p now with last_notified_price := some p, last_notified_ts := now },
       1, 1) := by
  unfold processWatch
  dsimp only [justChecked]
  rw [if_neg hcool]
  rcases hband with hle | hband
  · rw [if_pos hle, if_pos]
    exact hsn
  · rw [if_neg (by linarith [hband.1]), if_pos hband, if_pos]
    exact hsn

/-- Past the cooldown, a price in the band with an unchanged baseline is skipped. -/
theorem processWatch_skip_eq (now p t : ℚ) (w : Watch)
    (hcool : ¬ now - w.last_notified_ts < notifyCooldownSeconds)
    (hband : p ≤ t ∨ (0 < p - t ∧ p - t ≤ p * (1/100)))
    (hsn : shouldNotify w.last_notified_price p = false) :
    processWatch now p t w = (justChecked w p now, 0, 0) := by
  unfold processWatch
  dsimp only [justChecked]
  rw [if_neg hcool]
  rcases hband with hle | hband
  · rw [if_pos hle, if_neg]
    simp [hsn]
  · rw [if_neg (by linarith [hband.1]), if_pos hband, if_neg]
    simp [hsn]

/-- A watch whose baseline already records the observed price never notifies,
whatever the clock says. -/
theorem processWatch_same_price_silent (now p t : ℚ) (w : Watch)
    (h : w.last_notified_price = some p) :
    (processWatch now p t w).2.1 = 0 := by
  unfold processWatch
  have hsn : shouldNotify w.last_notified_price p = false := by
    rw [h]
    simp [shouldNotify]
  dsimp only
  split_ifs <;> simp_all [justChecked]

theorem shouldNotify_of_ne (lp : Option ℚ) (p : ℚ) (h : lp ≠ some p) :
    shouldNotify lp p = true := by
  cases lp with
  | none => rfl
  | some q =>
      simp only [shouldNotify, decide_eq_true_eq]
      intro hq
      exact h (by rw [hq])

theorem notifyCooldown_nonneg : (0:ℚ) ≤ notifyCooldownSeconds := by
  norm_num [notifyCooldownSeconds]

/-! ## C1 — budgeted selection -/

/-- C1: for every candidate list of size `N` the selector returns exactly
`min N 40` candidates, and they are the least elements of the candidate list
under the priority-key order: the selection is the 40-prefix of a key-sorted
permutation of the candidates, and every selected key is `≤` every dropped
key; an empty candidate list yields an empty selection. -/
theorem select_respects_budget (cands : List Candidate) :
    (selectCandidates cands).length = min cands.length maxChecksPerTick
    ∧ (∃ l : List Candidate, l.Perm cands
        ∧ l.Pairwise (fun a b => keyLe a.score b.score = true)
        ∧ selectCandidates cands = l.take maxChecksPerTick)
    ∧ (∀ c ∈ selectCandidates cands,
        ∀ d ∈ (cands.mergeSort (fun a b => keyLe a.score b.score)).drop maxChecksPerTick,
          keyLe c.score d.score = true)
    ∧ selectCandidates [] = [] := by
  have hsorted : List.Pairwise (fun a b : Candidate => keyLe a.score b.score = true)
      (cands.mergeSort (fun a b => keyLe a.score b.score)) :=
    List.sorted_mergeSort
      (fun a b c hab hbc => keyLe_trans a.score b.score c.score hab hbc)
      (fun a b => keyLe_total a.score b.score) cands
  refine ⟨?_, ⟨cands.mergeSort _, List.mergeSort_perm cands _, hsorted, rfl⟩, ?_,
    by rw [selectCandidates, List.mergeSort_nil]; rfl⟩
  · unfold selectCandidates
    rw [List.length_take, List.length_mergeSort]
    exact Nat.min_comm _ _
  · intro c hc d hd
    have := List.take_append_drop maxChecksPerTick
      (cands.mergeSort (fun a b => keyLe a.score b.score))
    rw [← this] at hsorted
    exact (List.pairwise_append.mp hsorted).2.2 c hc d hd

/-! ## C3 — cooldown gate -/

/-- C3: while `now - last_notified_ts` is below the 12-hour cooldown, the
notification step emits nothing, leaves the notification baseline untouched,
and still performs step 1 (the fresh price and `now` go to `last_checked_*`,
as they do unconditionally in every branch). -/
theorem cooldown_gate (now p t : ℚ) (w : Watch)
    (h : now - w.last_notified_ts < notifyCooldownSeconds) :
    processWatch now p t w = (justChecked w p now, 0, 0)
    ∧ ∀ (now2 p2 t2 : ℚ) (w2 : Watch),
        (processWatch now2 p2 t2 w2).1.last_checked_price = some p2
        ∧ (processWatch now2 p2 t2 w2).1.last_checked_ts = now2 :=
  ⟨processWatch_cooldown_eq now p t w h,
   fun now2 p2 t2 w2 => processWatch_checked now2 p2 t2 w2⟩

/-- C3 witness: `last_notified_at = now - 1h`, `current_price = 80`,
`threshold = 100` — no notification despite the price drop. -/
theorem cooldown_gate_witness :
    (3600:ℚ) - 0 < notifyCooldownSeconds
    ∧ processWatch 3600 80 100
        { asin := "B0", name := "", threshold := some 100, last_notified_price := none,
          last_notified_ts := 0, last_checked_price := none, last_checked_ts := 0 }
      = (justChecked
          { asin := "B0", name := "", threshold := some 100, last_notified_price := none,
            last_notified_ts := 0, last_checked_price := none, last_checked_ts := 0 } 80 3600,
         0, 0) :=
  ⟨by norm_num [notifyCooldownSeconds],
   (cooldown_gate 3600 80 100 _ (by norm_num [notifyCooldownSeconds])).1⟩

/-! ## C2 — at most one notification per distinct price -/

/-- C2: with cooldown elapsed and the price at/below threshold or in the 1%
near-band, the step notifies exactly once iff the baseline differs from the
observed price (an unchanged baseline emits nothing and leaves the
notification fields untouched); after the step the baseline records the
observed price, so re-observing it never re-notifies, while a different
in-band price under an elapsed cooldown re-arms exactly one notification. -/
theorem notify_once_per_price (now now2 p p2 t : ℚ) (w : Watch)
    (hcool : notifyCooldownSeconds ≤ now - w.last_notified_ts)
    (hband : p ≤ t ∨ (0 < p - t ∧ p - t ≤ p * (1/100)))
    (hne2 : p2 ≠ p)
    (hband2 : p2 ≤ t ∨ (0 < p2 - t ∧ p2 - t ≤ p2 * (1/100)))
    (hcool2 : notifyCooldownSeconds ≤ now2 - now) :
    processWatch now p t w =
      (if w.last_notified_price = some p
       then (justChecked w p now, 0, 0)
       else ({ justChecked w p now with
               last_notified_price := some p, last_notified_ts := now }, 1, 1))
    ∧ (processWatch now2 p t (processWatch now p t w).1).2.1 = 0
    ∧ (processWatch now2 p2 t (processWatch now p t w).1).2.1 = 1 := by
  have hcool' : ¬ now - w.last_notified_ts < notifyCooldownSeconds := not_lt.mpr hcool
  by_cases hlp : w.last_notified_price = some p
  · have h1 := processWatch_skip_eq now p t w hcool' hband (by rw [hlp]; simp [shouldNotify])
    refine ⟨by rw [if_pos hlp]; exact h1, ?_, ?_⟩
    · apply processWatch_same_price_silent
      rw [h1]
      exact hlp
    · have hw' : (processWatch now p t w).1 = justChecked w p now := by rw [h1]
      rw [hw']
      have hc2 : ¬ now2 - (justChecked w p now).last_notified_ts < notifyCooldownSeconds := by
        simp only [justChecked]
        push_neg
        have := notifyCooldown_nonneg
        linarith
      rw [processWatch_notify_eq now2 p2 t _ hc2 hband2
        (shouldNotify_of_ne _ _
          (by simp only [justChecked]; rw [hlp]; simp; exact Ne.symm hne2))]
  · have h1 := processWatch_notify_eq now p t w hcool' hband (shouldNotify_of_ne _ _ hlp)
    refine ⟨by rw [if_neg hlp]; exact h1, ?_, ?_⟩
    · apply processWatch_same_price_silent
      rw [h1]
    · have hc2 : ¬ now2 - (processWatch now p t w).1.last_notified_ts
          < notifyCooldownSeconds := by
        rw [h1]
        push_neg
        have := notifyCooldown_nonneg
        dsimp only
        linarith
      rw [processWatch_notify_eq now2 p2 t _ hc2 hband2
        (shouldNotify_of_ne _ _ (by rw [h1]; simp; exact Ne.symm hne2))]

/-- C2 witness: the spec's scenario — `threshold = 100`,
`last_notified_price = 95`, `last_notified_at = now - 13h`: re-observing 95
emits nothing, then observing 90 after another cooldown emits exactly one. -/
theorem notify_once_per_price_witness :
    notifyCooldownSeconds ≤ (46800:ℚ) - 0
    ∧ ((90:ℚ) ≠ 95)
    ∧ notifyCooldownSeconds ≤ (93600:ℚ) - 46800
    ∧ (processWatch 46800 95 100
        { asin := "B1", name := "", threshold := some 100, last_notified_price := some 95,
          last_notified_ts := 0, last_checked_price := some 95, last_checked_ts := 0 }
       = (if ({ asin := "B1", name := "", threshold := some 100, last_notified_price := some 95,
                last_notified_ts := 0, last_checked_price := some 95,
                last_checked_ts := 0 } : Watch).last_notified_price = some 95
          then (justChecked
                 { asin := "B1", name := "", threshold := some 100,
                   last_notified_price := some 95, last_notified_ts := 0,
                   last_checked_price := some 95, last_checked_ts := 0 } 95 46800, 0, 0)
          else ({ justChecked
                   { asin := "B1", name := "", threshold := some 100,
                     last_notified_price := some 95, last_notified_ts := 0,
                     last_checked_price := some 95, last_checked_ts := 0 } 95 46800 with
                  last_notified_price := some 95, last_notified_ts := 46800 }, 1, 1)))
    ∧ (processWatch 93600 95 100
         (processWatch 46800 95 100
           { asin := "B1", name := "", threshold := some 100, last_notified_price := some 95,
             last_notified_ts := 0, last_checked_price := some 95,
             last_checked_ts := 0 }).1).2.1 = 0
    ∧ (processWatch 93600 90 100
         (processWatch 46800 95 100
           { asin := "B1", name := "", threshold := some 100, last_notified_price := some 95,
             last_notified_ts := 0, last_checked_price := some 95,
             last_checked_ts := 0 }).1).2.1 = 1 := by
  have h := notify_once_per_price 46800 93600 95 90 100
    { asin := "B1", name := "", threshold := some 100, last_notified_price := some 95,
      last_notified_ts := 0, last_checked_price := some 95, last_checked_ts := 0 }
    (by norm_num [notifyCooldownSeconds])
    (Or.inl (by norm_num))
    (by norm_num)
    (Or.inl (by norm_num))
    (by norm_num [notifyCooldownSeconds])
  exact ⟨by norm_num [notifyCooldownSeconds], by norm_num,
    by norm_num [notifyCooldownSeconds], h.1, h.2.1, h.2.2⟩

/-! ## C4 — priority buckets and tie-break -/

theorem priority_bucket_fst_eq (p t now ts : ℚ) (htn : 0 ≤ t) :
    (priority_bucket (some p) t now ts).1 =
      if p ≤ t * (101/100) then 0 else if p ≤ t * (105/100) then 1
      else if p ≤ t * (115/100) then 2 else 3 := by
  rcases eq_or_lt_of_le htn with htz | ht
  · -- threshold 0: the hard-coded gap 999 sends every positive price to
    -- bucket 3 and every non-positive price to bucket 0, which is exactly
    -- what the band formulas give at t = 0.
    subst htz
    by_cases hp : p ≤ (0:ℚ)
    · rw [if_pos (show p ≤ 0 * (101/100) by linarith)]
      simp only [priority_bucket]
      norm_num [hp]
    · rw [if_neg (show ¬ p ≤ 0 * (101/100) from fun hh => hp (by linarith)),
          if_neg (show ¬ p ≤ 0 * (105/100) from fun hh => hp (by linarith)),
          if_neg (show ¬ p ≤ 0 * (115/100) from fun hh => hp (by linarith))]
      simp only [priority_bucket]
      norm_num [hp]
  have ht0 : t ≠ 0 := ne_of_gt ht
  have hgap1 : ((p - t)/t ≤ 1/100) ↔ p ≤ t * (101/100) := by
    rw [div_le_iff₀ ht]
    constructor <;> intro h <;> linarith
  have hgap5 : ((p - t)/t ≤ 5/100) ↔ p ≤ t * (105/100) := by
    rw [div_le_iff₀ ht]
    constructor <;> intro h <;> linarith
  have hgap15 : ((p - t)/t ≤ 15/100) ↔ p ≤ t * (115/100) := by
    rw [div_le_iff₀ ht]
    constructor <;> intro h <;> linarith
  have hor : (p ≤ t ∨ (p - t)/t ≤ 1/100) ↔ p ≤ t * (101/100) := by
    rw [hgap1]
    constructor
    · rintro (h | h)
      · nlinarith
      · exact h
    · exact Or.inr
  simp only [priority_bucket, if_neg ht0]
  simp only [hor, hgap5, hgap15]

theorem priority_bucket_snd (lp : Option ℚ) (t now ts : ℚ) :
    (priority_bucket lp t now ts).2 = -(ageOf now ts) := by
  cases lp <;> simp [priority_bucket]

/-- C4 counterexample to the claim's tie-break: `now = 1`, two same-bucket
watches with `last_checked_ts = 5` and `10` (a clock that stepped backwards).
The claim's staleness `now - last_checked_ts` is strictly higher for the
first (`-4 > -9`), yet the code clamps both ages to `0` and produces
identical priority keys, so the higher-staleness watch does not sort first:
the selector leaves the lower-staleness watch ahead of it. -/
theorem priority_tiebreak_counterexample :
    ((1:ℚ) - 5 > (1:ℚ) - 10)
    ∧ priority_bucket none 50 1 10 = priority_bucket none 50 1 5
    ∧ ¬ keyLt (priority_bucket none 50 1 5) (priority_bucket none 50 1 10)
    ∧ selectCandidates
        [{ score := priority_bucket none 50 1 10, idx := 0, chat := 1, asin := "X",
           threshold := 50 },
         { score := priority_bucket none 50 1 5, idx := 1, chat := 1, asin := "Y",
           threshold := 50 }]
      = [{ score := priority_bucket none 50 1 10, idx := 0, chat := 1, asin := "X",
           threshold := 50 },
         { score := priority_bucket none 50 1 5, idx := 1, chat := 1, asin := "Y",
           threshold := 50 }] := by
  have h10 : ageOf 1 10 = 0 := by
    rw [ageOf, if_neg (by norm_num), max_eq_left (by norm_num)]
  have h5 : ageOf 1 5 = 0 := by
    rw [ageOf, if_neg (by norm_num), max_eq_left (by norm_num)]
  have hkey : priority_bucket none 50 1 10 = priority_bucket none 50 1 5 := by
    simp [priority_bucket, h10, h5]
  refine ⟨by norm_num, hkey, ?_, ?_⟩
  · rw [hkey]
    simp [keyLt]
  · unfold selectCandidates
    rw [List.mergeSort_of_sorted, List.take_of_length_le (by simp [maxChecksPerTick])]
    refine List.pairwise_cons.mpr ⟨?_, List.pairwise_singleton _ _⟩
    intro b hb
    rw [List.mem_singleton] at hb
    subst hb
    dsimp only
    rw [hkey]
    simp [keyLe]

/-- C4 (amended): for every watch with a numeric threshold `t`: when
`0 ≤ t` the bucket is 0 iff `last_checked_price ≤ 1.01·t`, 1 iff it lies in
`(1.01·t, 1.05·t]`, 2 iff in `(1.05·t, 1.15·t]` or the price is unknown,
and 3 iff above `1.15·t` (a zero threshold is a normal numeric threshold:
the formulas degenerate to bucket 0 iff the price is ≤ 0, else bucket 3,
matching the hard-coded gap 999); when `t < 0` the division flips the gap
comparison and every known price lands in bucket 0.  Within a bucket the
key orders by descending age, where age is the clamped staleness
`max(0, now − last_checked_ts)` and a never-checked watch gets the fixed
sentinel age `10^12` — which strictly exceeds every checked age whenever
`now ≤ 10^12`, so under any realistic clock a never-checked watch sorts
first in its bucket, ranked by staleness only. -/
theorem priority_bucket_amended (t now : ℚ) :
    (∀ ts, (priority_bucket none t now ts).1 = 2)
    ∧ (0 ≤ t → ∀ p ts,
        ((priority_bucket (some p) t now ts).1 = 0 ↔ p ≤ t * (101/100))
        ∧ ((priority_bucket (some p) t now ts).1 = 1 ↔
            t * (101/100) < p ∧ p ≤ t * (105/100))
        ∧ ((priority_bucket (some p) t now ts).1 = 2 ↔
            t * (105/100) < p ∧ p ≤ t * (115/100))
        ∧ ((priority_bucket (some p) t now ts).1 = 3 ↔ t * (115/100) < p))
    ∧ (t < 0 → ∀ p ts, (priority_bucket (some p) t now ts).1 = 0)
    ∧ (∀ lp1 lp2 ts1 ts2,
        (priority_bucket lp1 t now ts1).1 = (priority_bucket lp2 t now ts2).1 →
        ageOf now ts2 < ageOf now ts1 →
        keyLt (priority_bucket lp1 t now ts1) (priority_bucket lp2 t now ts2))
    ∧ (∀ ts, 0 < ts → now ≤ 10^12 → ageOf now ts < ageOf now 0) := by
  refine ⟨fun ts => by simp [priority_bucket], fun htn p ts => ?_, fun htneg p ts => ?_,
    ?_, ?_⟩
  swap
  · have ht0 : t ≠ 0 := ne_of_lt htneg
    simp only [priority_bucket, if_neg ht0]
    by_cases hp : p ≤ t
    · rw [if_pos (Or.inl hp)]
    · rw [if_pos (Or.inr (by
        rw [div_le_iff_of_neg htneg]
        have hlt := lt_of_not_le hp
        nlinarith))]
  · have hb := priority_bucket_fst_eq p t now ts htn
    rcases le_or_lt p (t * (101/100)) with r1 | r1
    · have hv : (priority_bucket (some p) t now ts).1 = 0 := by rw [hb, if_pos r1]
      rw [hv]
      refine ⟨iff_of_true rfl r1, iff_of_false (by decide) ?_,
        iff_of_false (by decide) ?_, iff_of_false (by decide) ?_⟩
      · rintro ⟨a, b⟩
        linarith
      · rintro ⟨a, b⟩
        linarith
      · intro a
        linarith
    · rcases le_or_lt p (t * (105/100)) with r2 | r2
      · have hv : (priority_bucket (some p) t now ts).1 = 1 := by
          rw [hb, if_neg (not_le.mpr r1), if_pos r2]
        rw [hv]
        refine ⟨iff_of_false (by decide) ?_, iff_of_true rfl ⟨r1, r2⟩,
          iff_of_false (by decide) ?_, iff_of_false (by decide) ?_⟩
        · intro a
          linarith
        · rintro ⟨a, b⟩
          linarith
        · intro a
          linarith
      · rcases le_or_lt p (t * (115/100)) with r3 | r3
        · have hv : (priority_bucket (some p) t now ts).1 = 2 := by
            rw [hb, if_neg (not_le.mpr r1), if_neg (not_le.mpr r2), if_pos r3]
          rw [hv]
          refine ⟨iff_of_false (by decide) ?_, iff_of_false (by decide) ?_,
            iff_of_true rfl ⟨r2, r3⟩, iff_of_false (by decide) ?_⟩
          · intro a
            linarith
          · rintro ⟨a, b⟩
            linarith
          · intro a
            linarith
        · have hv : (priority_bucket (some p) t now ts).1 = 3 := by
            rw [hb, if_neg (not_le.mpr r1), if_neg (not_le.mpr r2), if_neg (not_le.mpr r3)]
          rw [hv]
          refine ⟨iff_of_false (by decide) ?_, iff_of_false (by decide) ?_,
            iff_of_false (by decide) ?_, iff_of_true rfl r3⟩
          · intro a
            linarith
          · rintro ⟨a, b⟩
            linarith
          · rintro ⟨a, b⟩
            linarith
  · intro lp1 lp2 ts1 ts2 hb hage
    exact Or.inr ⟨hb, by
      rw [priority_bucket_snd, priority_bucket_snd]
      exact neg_lt_neg hage⟩
  · intro ts hts hnow
    rw [show ageOf now 0 = 10^12 from by rw [ageOf, if_pos rfl],
        ageOf, if_neg (ne_of_gt hts)]
    apply max_lt
    · norm_num
    · linarith

/-- C4 witness: threshold 100, now 1000, a watch last seen at 102 with
`last_checked_ts = 500` is in bucket 1 because `101 < 102 ≤ 105`. -/
theorem priority_bucket_amended_witness :
    (priority_bucket (some 102) 100 1000 500).1 = 1
      ↔ (100:ℚ) * (101/100) < 102 ∧ (102:ℚ) ≤ 100 * (105/100) :=
  ((priority_bucket_amended 100 1000).2.1 (by norm_num) 102 500).2.1

/-! ## C5 — persistence calls per tick -/

theorem processWatch_saves_eq_notifs (now p t : ℚ) (w : Watch) :
    (processWatch now p t w).2.2 = (processWatch now p t w).2.1 := by
  unfold processWatch
  dsimp only
  split_ifs <;> rfl

theorem buildCandidates_get (now : ℚ) (flat : List (Int × Watch)) (c : Candidate)
    (h : c ∈ buildCandidates now flat) : ∃ e, flat.get? c.idx = some e := by
  unfold buildCandidates at h
  rcases List.mem_filterMap.mp h with ⟨e, he, hf⟩
  rcases ht : e.2.2.threshold with _ | t
  · rw [ht] at hf
    simp at hf
  · rw [ht] at hf
    split_ifs at hf with ha
    simp only [Option.some_inj] at hf
    subst hf
    have hg := List.mem_enum_iff_getElem?.mp he
    exact ⟨e.2, by rw [List.get?_eq_getElem?]; exact hg⟩

/-- C5 (amended): a tick whose candidate set is empty returns early with no
persistence call; a tick with at least one candidate raises `AttributeError`
at the first selected watch's price read — watcher.py:137 calls the async
`get_price_data` without `await` and reads `.price_now` off the returned
coroutine object — so it mutates no watch, emits no notification, and never
reaches any `save_state` call: the watcher never persists the store, and the
in-loop saves (lines 172, 194) and the final save (line 198) are
unreachable. -/
theorem tick_save_count (now : ℚ) (st : StoreState) :
    (buildCandidates now (flattenState st) = [] →
      runIteration now st = ((flattenState st, 0, 0), none))
    ∧ (buildCandidates now (flattenState st) ≠ [] →
      (runIteration now st).1 = (flattenState st, 0, 0) ∧ (runIteration now st).2 ≠ none) := by
  constructor
  · intro h
    simp only [runIteration]
    rw [if_pos h]
  · intro h
    obtain ⟨c, rest, hsel⟩ : ∃ c rest,
        selectCandidates (buildCandidates now (flattenState st)) = c :: rest := by
      cases hs : selectCandidates (buildCandidates now (flattenState st)) with
      | nil =>
          exfalso
          unfold selectCandidates at hs
          rcases List.take_eq_nil_iff.mp hs with hm | hm
          · exact absurd hm (by simp [maxChecksPerTick])
          · have hp := List.mergeSort_perm (buildCandidates now (flattenState st))
              (fun a b => keyLe a.score b.score)
            rw [hm] at hp
            exact h hp.symm.eq_nil
      | cons c rest => exact ⟨c, rest, rfl⟩
    have hc_mem : c ∈ buildCandidates now (flattenState st) := by
      have hc1 : c ∈ selectCandidates (buildCandidates now (flattenState st)) := by
        rw [hsel]
        exact List.mem_cons_self c rest
      unfold selectCandidates at hc1
      exact (List.mergeSort_perm _ _).subset (List.take_subset _ _ hc1)
    obtain ⟨cw, hget⟩ := buildCandidates_get now (flattenState st) c hc_mem
    obtain ⟨chat, w⟩ := cw
    have hps : processSelected now (c :: rest) (flattenState st)
        = ((flattenState st, 0, 0),
           some "AttributeError: coroutine object has no attribute price_now") := by
      unfold processSelected
      rw [hget]
      rfl
    simp only [runIteration]
    rw [if_neg h, hsel, hps]
    exact ⟨rfl, by simp⟩

/-- C5 witness: a concrete one-watch store with an active threshold has a
non-empty candidate set, and its tick leaves the store untouched with zero
notifications and zero saves while raising the attribute error. -/
theorem tick_save_count_witness :
    buildCandidates 1000000 (flattenState
      [(1, [{ asin := "A0", name := "", threshold := some 100, last_notified_price := none,
              last_notified_ts := 0, last_checked_price := none,
              last_checked_ts := 0 }])]) ≠ []
    ∧ (runIteration 1000000
        [(1, [{ asin := "A0", name := "", threshold := some 100, last_notified_price := none,
                last_notified_ts := 0, last_checked_price := none,
                last_checked_ts := 0 }])]).1
      = (flattenState
          [(1, [{ asin := "A0", name := "", threshold := some 100, last_notified_price := none,
                  last_notified_ts := 0, last_checked_price := none,
                  last_checked_ts := 0 }])], 0, 0)
    ∧ (runIteration 1000000
        [(1, [{ asin := "A0", name := "", threshold := some 100, last_notified_price := none,
                last_notified_ts := 0, last_checked_price := none,
                last_checked_ts := 0 }])]).2 ≠ none := by
  have hne : buildCandidates 1000000 (flattenState
      [(1, [{ asin := "A0", name := "", threshold := some 100, last_notified_price := none,
              last_notified_ts := 0, last_checked_price := none,
              last_checked_ts := 0 }])]) ≠ [] := by
    have hflat : flattenState
        [(1, [{ asin := "A0", name := "", threshold := some 100, last_notified_price := none,
                last_notified_ts := 0, last_checked_price := none,
                last_checked_ts := 0 }])]
        = [(1, { asin := "A0", name := "", threshold := some 100, last_notified_price := none,
                 last_notified_ts := 0, last_checked_price := none,
                 last_checked_ts := 0 })] := by
      simp [flattenState]
    rw [hflat]
    simp [buildCandidates, List.enum_cons]
  have h := (tick_save_count 1000000
    [(1, [{ asin := "A0", name := "", threshold := some 100, last_notified_price := none,
            last_notified_ts := 0, last_checked_price := none,
            last_checked_ts := 0 }])]).2 hne
  exact ⟨hne, h.1, h.2⟩

/-- C5 counterexample: one watch with an active threshold 100 and cooldown
long elapsed — instead of processing the batch and persisting exactly once,
the tick raises `AttributeError` (missing `await` at watcher.py:137) at the
first selected watch, mutates nothing, and makes zero `save_state` calls. -/
theorem tick_save_count_counterexample :
    (runIteration 1000000
      [(1, [{ asin := "A0", name := "", threshold := some 100, last_notified_price := none,
              last_notified_ts := 0, last_checked_price := none,
              last_checked_ts := 0 }])]).1.2.2 = 0
    ∧ (runIteration 1000000
        [(1, [{ asin := "A0", name := "", threshold := some 100, last_notified_price := none,
                last_notified_ts := 0, last_checked_price := none,
                last_checked_ts := 0 }])]).1.2.2 ≠ 1
    ∧ (runIteration 1000000
        [(1, [{ asin := "A0", name := "", threshold := some 100, last_notified_price := none,
                last_notified_ts := 0, last_checked_price := none,
                last_checked_ts := 0 }])]).2
      = some "AttributeError: coroutine object has no attribute price_now"
    ∧ (runIteration 1000000
        [(1, [{ asin := "A0", name := "", threshold := some 100, last_notified_price := none,
                last_notified_ts := 0, last_checked_price := none,
                last_checked_ts := 0 }])]).1.1
      = [(1, { asin := "A0", name := "", threshold := some 100, last_notified_price := none,
               last_notified_ts := 0, last_checked_price := none, last_checked_ts := 0 })] := by
  have hflat : flattenState
      [(1, [{ asin := "A0", name := "", threshold := some 100, last_notified_price := none,
              last_notified_ts := 0, last_checked_price := none,
              last_checked_ts := 0 }])]
      = [(1, { asin := "A0", name := "", threshold := some 100, last_notified_price := none,
               last_notified_ts := 0, last_checked_price := none, last_checked_ts := 0 })] := by
    simp [flattenState]
  have hcands : buildCandidates 1000000
      [(1, { asin := "A0", name := "", threshold := some 100, last_notified_price := none,
             last_notified_ts := 0, last_checked_price := none, last_checked_ts := 0 })]
      = [{ score := priority_bucket none 100 1000000 0, idx := 0, chat := 1, asin := "A0",
           threshold := 100 }] := by
    simp [buildCandidates, List.enum_cons]
  have hps : processSelected 1000000
      [{ score := priority_bucket none 100 1000000 0, idx := 0, chat := 1, asin := "A0",
         threshold := 100 }]
      [(1, { asin := "A0", name := "", threshold := some 100, last_notified_price := none,
             last_notified_ts := 0, last_checked_price := none, last_checked_ts := 0 })]
      = (([(1, { asin := "A0", name := "", threshold := some 100, last_notified_price := none,
                 last_notified_ts := 0, last_checked_price := none,
                 last_checked_ts := 0 })], 0, 0),
         some "AttributeError: coroutine object has no attribute price_now") := rfl
  have hrun : runIteration 1000000
      [(1, [{ asin := "A0", name := "", threshold := some 100, last_notified_price := none,
              last_notified_ts := 0, last_checked_price := none,
              last_checked_ts := 0 }])]
      = (([(1, { asin := "A0", name := "", threshold := some 100, last_notified_price := none,
                 last_notified_ts := 0, last_checked_price := none,
                 last_checked_ts := 0 })], 0, 0),
         some "AttributeError: coroutine object has no attribute price_now") := by
    simp only [runIteration]
    rw [hflat, hcands]
    rw [if_neg (by simp)]
    unfold selectCandidates
    rw [List.mergeSort_singleton, List.take_of_length_le (by simp [maxChecksPerTick]), hps]
  refine ⟨by rw [hrun], by rw [hrun]; norm_num, by rw [hrun], by rw [hrun]⟩

/-! ## C6 — behaviour of the price source on upstream failure -/

theorem mock_price_now_pos (asin : String) : 0 < (mock_prices_from_asin asin).price_now := by
  simp only [mock_prices_from_asin]
  have ha : (0:ℚ) ≤ (((asin.data.map Char.toNat).sum % 280 : ℕ) : ℚ) := Nat.cast_nonneg _
  have hb : (0:ℚ) ≤ (((asin.data.map Char.toNat).sum % 9 : ℕ) : ℚ) * (1/10) := by
    have := Nat.cast_nonneg (α := ℚ) ((asin.data.map Char.toNat).sum % 9)
    nlinarith
  calc (0:ℚ) < 199/10 := by norm_num
    _ = round2 (199/10) := (round2_fix _ 1990 (by norm_num)).symm
    _ ≤ _ := round2_mono (by linarith)

/-- C6 counterexample: with Keepa enabled and a key present, a timeout from
the upstream fetch makes `get_price_data` return the deterministic mock
price data (a `PriceData` with a strictly positive price), not an
`Unavailable` outcome — no such outcome exists in its return type. -/
theorem unavailable_outcome_counterexample :
    get_price_data true true (.error "Timeout while calling Keepa") "B0TEST1234"
      = mock_prices_from_asin "B0TEST1234"
    ∧ 0 < (mock_prices_from_asin "B0TEST1234").price_now :=
  ⟨rfl, mock_price_now_pos "B0TEST1234"⟩

/-- C6 (amended): on every upstream failure (timeout, malformed response,
non-success status, missing fields — all of which surface as an `.error`
fetch outcome), `get_price_data` neither raises nor reports unavailability:
it silently falls back to the mock generator and returns synthetic price
data with a strictly positive current price. -/
theorem fetch_failure_returns_mock (uk hk : Bool) (e : String) (asin : String) :
    get_price_data uk hk (.error e) asin = mock_prices_from_asin asin
    ∧ 0 < (mock_prices_from_asin asin).price_now := by
  refine ⟨?_, mock_price_now_pos asin⟩
  unfold get_price_data
  split_ifs <;> rfl

/-! ## C7 — threshold update clears the notification baseline -/

theorem lookupChat?_mapChat (chat : Int) (f : List Watch → List Watch) (st : StoreState) :
    lookupChat? (mapChat chat f st) chat = (lookupChat? st chat).map f := by
  induction st with
  | nil => rfl
  | cons e rest ih =>
      show lookupChat? ((if e.1 == chat then (e.1, f e.2) else e) :: mapChat chat f rest) chat
          = (lookupChat? (e :: rest) chat).map f
      by_cases h : e.1 == chat
      · rw [if_pos h]
        unfold lookupChat?
        rw [List.find?_cons_of_pos (a := (e.1, f e.2)) (p := fun x => x.1 == chat)
              (mapChat chat f rest) h,
            List.find?_cons_of_pos (a := e) (p := fun x => x.1 == chat) rest h]
        simp
      · rw [if_neg h]
        unfold lookupChat?
        rw [List.find?_cons_of_neg (a := e) (p := fun x => x.1 == chat) (mapChat chat f rest) h,
            List.find?_cons_of_neg (a := e) (p := fun x => x.1 == chat) rest h]
        exact ih

theorem any_beq_of_lookup (st : StoreState) (chat : Int) (ws : List Watch)
    (h : lookupChat? st chat = some ws) :
    st.any (fun e => e.1 == chat) = true := by
  unfold lookupChat? at h
  cases hf : st.find? (fun e => e.1 == chat) with
  | none => rw [hf] at h; simp at h
  | some e =>
      exact List.any_eq_true.mpr
        ⟨e, List.mem_of_find?_eq_some hf,
         List.find?_some (p := fun x : Int × List Watch => x.1 == chat) hf⟩

theorem setdefault_of_present (chat : Int) (st : StoreState)
    (h : st.any (fun e => e.1 == chat) = true) :
    setdefaultChat chat st = st := by
  rw [setdefaultChat, if_pos h]

theorem updateWatchList_found (asin : String) (thr : Option ℚ) (nm : Option String)
    (pre post : List Watch) (w : Watch) (hw : w.asin = asin)
    (hpre : ∀ u ∈ pre, u.asin ≠ asin) :
    updateWatchList asin thr nm (pre ++ w :: post) =
      (pre ++ { w with threshold := thr, name := nm.getD w.name, last_notified_ts := 0, last_notified_price := none } :: post, true) := by
  induction pre with
  | nil => simp [updateWatchList, hw]
  | cons u us ih =>
      have hu : u.asin ≠ asin := hpre u (by simp)
      simp only [List.cons_append, updateWatchList]
      rw [if_neg hu]
      simp only [List.append_eq]
      rw [ih (fun v hv => hpre v (by simp [hv]))]

/-- C7: `set_or_update_watch` on an existing watch (the first entry of the
owner's list carrying the asin) installs the new threshold, resets the
notification baseline to `last_notified_price = none`, `last_notified_ts =
0`, applies the name only when one is given, and leaves the asin, the
`last_checked_*` fields, and every other watch of the owner untouched. -/
theorem threshold_reset_clears_arming (st : StoreState) (chat : Int) (asin : String)
    (thr : Option ℚ) (nm : Option String) (pre post : List Watch) (w : Watch)
    (hch : lookupChat st chat = pre ++ w :: post)
    (hw : w.asin = asin) (hpre : ∀ u ∈ pre, u.asin ≠ asin) :
    lookupChat (set_or_update_watch chat asin thr nm st) chat =
      pre ++ { w with threshold := thr, name := nm.getD w.name, last_notified_ts := 0, last_notified_price := none } :: post := by
  have hsome : lookupChat? st chat = some (pre ++ w :: post) := by
    unfold lookupChat at hch
    cases hf : lookupChat? st chat with
    | none => rw [hf] at hch; simp at hch
    | some ws =>
        rw [hf, Option.getD_some] at hch
        rw [hch]
  have hpresent := any_beq_of_lookup st chat _ hsome
  rw [show set_or_update_watch chat asin thr nm st
      = mapChat chat
          (fun ws =>
            let r := updateWatchList asin thr nm ws
            if r.2 then r.1 else r.1 ++ [newWatchSet asin thr nm]) st from by
    unfold set_or_update_watch
    rw [setdefault_of_present chat st hpresent]]
  unfold lookupChat
  rw [lookupChat?_mapChat, hsome]
  dsimp only [Option.map, Option.getD]
  rw [updateWatchList_found asin thr nm pre post w hw hpre]
  simp [Option.getD]

/-- C7 witness: a watch armed at price 95 gets threshold 50; the baseline is
cleared while asin and the `last_checked_*` cache survive. -/
theorem threshold_reset_clears_arming_witness :
    lookupChat
      (set_or_update_watch 7 "B0A" (some 50) none
        [(7, [{ asin := "B0A", name := "Nome", threshold := some 100,
                last_notified_price := some 95, last_notified_ts := 1111,
                last_checked_price := some 97, last_checked_ts := 2222 }])]) 7
      = [{ asin := "B0A", name := "Nome", threshold := some 50,
           last_notified_price := none, last_notified_ts := 0,
           last_checked_price := some 97, last_checked_ts := 2222 }] := by
  have h := threshold_reset_clears_arming
    [(7, [{ asin := "B0A", name := "Nome", threshold := some 100,
            last_notified_price := some 95, last_notified_ts := 1111,
            last_checked_price := some 97, last_checked_ts := 2222 }])]
    7 "B0A" (some 50) none [] []
    { asin := "B0A", name := "Nome", threshold := some 100,
      last_notified_price := some 95, last_notified_ts := 1111,
      last_checked_price := some 97, last_checked_ts := 2222 }
    rfl rfl (fun u hu => absurd hu (List.not_mem_nil u))
  simpa using h

/-! ## C8 — crash-safe persistence -/

theorem saveSteps_no_rename_main (st : StoreState) (fs : FsState) (steps : List SaveStep)
    (h : SaveStep.renameTmp ∉ steps) : (runSaveSteps st fs steps).main = fs.main := by
  induction steps generalizing fs with
  | nil => rfl
  | cons s rest ih =>
      have hs : s ≠ SaveStep.renameTmp := fun he => h (he ▸ List.mem_cons_self s rest)
      have hrest : SaveStep.renameTmp ∉ rest := fun hm => h (List.mem_cons_of_mem s hm)
      show (runSaveSteps st (applySaveStep st fs s) rest).main = fs.main
      rw [ih (applySaveStep st fs s) hrest]
      cases s with
      | backup =>
          unfold applySaveStep
          split_ifs <;> rfl
      | backupTorn =>
          unfold applySaveStep
          split_ifs <;> rfl
      | writeTmp => rfl
      | writeTmpTorn => rfl
      | renameTmp => exact absurd rfl hs

/-- C8: `save_state` writes the serialized state to the temporary path and
renames it over the durable path; any interruption before the rename (torn
backup copy, torn temp write, or a crash between steps) leaves the durable
file bit-for-bit the previously committed document, and `load_state` after
such an interruption still returns the previous good state; the
uninterrupted sequence commits exactly the serialized new state. -/
theorem atomic_save (st2 : StoreState) (fs : FsState) (d : RawDoc) (steps : List SaveStep)
    (hmain : fs.main = some (.good d)) (hnr : SaveStep.renameTmp ∉ steps) :
    (runSaveSteps st2 fs steps).main = some (.good d)
    ∧ loadFromFs (runSaveSteps st2 fs steps) = load_state d
    ∧ loadFromFs fs = load_state d
    ∧ (runSaveSteps st2 fs fullSave).main = some (.good (serialize st2)) := by
  have h1 := saveSteps_no_rename_main st2 fs steps hnr
  refine ⟨h1.trans hmain, ?_, ?_, ?_⟩
  · unfold loadFromFs
    rw [h1.trans hmain]
  · unfold loadFromFs
    rw [hmain]
  · unfold runSaveSteps fullSave
    simp [applySaveStep, hmain]

/-- C8 witness: starting from a committed document, a save interrupted while
writing the temporary file (after the backup copy) leaves the durable file
intact and loading still yields the previous state. -/
theorem atomic_save_witness :
    (runSaveSteps [] { main := some (.good [(3, [])]), bak := none, tmp := none }
        [SaveStep.backup, SaveStep.writeTmpTorn]).main = some (.good [(3, [])])
    ∧ loadFromFs (runSaveSteps [] { main := some (.good [(3, [])]), bak := none, tmp := none }
        [SaveStep.backup, SaveStep.writeTmpTorn]) = load_state [(3, [])] := by
  have h := atomic_save [] { main := some (.good [(3, [])]), bak := none, tmp := none }
    [(3, [])] [SaveStep.backup, SaveStep.writeTmpTorn] rfl (by decide)
  exact ⟨h.1, h.2.1⟩

/-! ## C9 — uniqueness of (owner, asin) -/

theorem map_fst_mapChat (chat : Int) (f : List Watch → List Watch) (st : StoreState) :
    (mapChat chat f st).map Prod.fst = st.map Prod.fst := by
  unfold mapChat
  rw [List.map_map]
  exact List.map_congr_left (fun e _ => by
    dsimp [Function.comp]
    split_ifs <;> rfl)

theorem mem_mapChat (chat : Int) (f : List Watch → List Watch) (st : StoreState)
    (e : Int × List Watch) (h : e ∈ mapChat chat f st) :
    e ∈ st ∨ ∃ e' ∈ st, e = (e'.1, f e'.2) := by
  unfold mapChat at h
  rcases List.mem_map.mp h with ⟨e', he', heq⟩
  by_cases hc : e'.1 == chat
  · rw [if_pos hc] at heq
    exact Or.inr ⟨e', he', heq.symm⟩
  · rw [if_neg hc] at heq
    exact Or.inl (heq ▸ he')

theorem mapChat_wf (chat : Int) (f : List Watch → List Watch) (st : StoreState)
    (hwf : StateWF st)
    (hf : ∀ ws, (ws.map Watch.asin).Nodup → ((f ws).map Watch.asin).Nodup) :
    StateWF (mapChat chat f st) := by
  refine ⟨by rw [map_fst_mapChat]; exact hwf.1, ?_⟩
  intro e he
  rcases mem_mapChat chat f st e he with he' | ⟨e', he', rfl⟩
  · exact hwf.2 e he'
  · exact hf e'.2 (hwf.2 e' he')

theorem chat_not_mem_of_not_any (chat : Int) (st : StoreState)
    (h : ¬ st.any (fun e => e.1 == chat) = true) :
    chat ∉ st.map Prod.fst := by
  intro hmem
  rcases List.mem_map.mp hmem with ⟨e, he, hfst⟩
  exact h (List.any_eq_true.mpr ⟨e, he, by simp [hfst]⟩)

theorem append_singleton_wf (chat : Int) (ws : List Watch) (st : StoreState)
    (hwf : StateWF st) (hchat : chat ∉ st.map Prod.fst)
    (hws : (ws.map Watch.asin).Nodup) :
    StateWF (st ++ [(chat, ws)]) := by
  constructor
  · rw [List.map_append]
    rw [List.nodup_append]
    refine ⟨hwf.1, List.nodup_singleton _, ?_⟩
    intro a ha hb
    rw [List.map_singleton, List.mem_singleton] at hb
    subst hb
    exact hchat ha
  · intro e he
    rcases List.mem_append.mp he with he' | he'
    · exact hwf.2 e he'
    · rw [List.mem_singleton] at he'
      subst he'
      exact hws

theorem setdefaultChat_wf (chat : Int) (st : StoreState) (hwf : StateWF st) :
    StateWF (setdefaultChat chat st) := by
  unfold setdefaultChat
  split_ifs with h
  · exact hwf
  · exact append_singleton_wf chat [] st hwf (chat_not_mem_of_not_any chat st h) (by simp)

theorem dictInsert_wf (chat : Int) (ws : List Watch) (st : StoreState)
    (hwf : StateWF st) (hws : (ws.map Watch.asin).Nodup) :
    StateWF (dictInsert chat ws st) := by
  unfold dictInsert
  split_ifs with h
  · exact mapChat_wf chat (fun _ => ws) st hwf (fun _ _ => hws)
  · exact append_singleton_wf chat ws st hwf (chat_not_mem_of_not_any chat st h) hws

theorem ensureList_asins (asin : String) (nm : Option String) (ws : List Watch) :
    ((ensureList asin nm ws).1).map Watch.asin = ws.map Watch.asin := by
  induction ws with
  | nil => rfl
  | cons w rest ih =>
      by_cases h : w.asin = asin
      · simp only [ensureList, if_pos h, List.map_cons]
        split_ifs <;> rfl
      · simp only [ensureList, if_neg h, List.map_cons]
        rw [ih]

theorem ensureList_not_found (asin : String) (nm : Option String) (ws : List Watch)
    (h : (ensureList asin nm ws).2 = false) : asin ∉ ws.map Watch.asin := by
  induction ws with
  | nil => simp
  | cons w rest ih =>
      by_cases hc : w.asin = asin
      · simp only [ensureList, if_pos hc] at h
        exact absurd h (by decide)
      · simp only [ensureList, if_neg hc] at h
        rw [List.map_cons, List.mem_cons]
        rintro (he | he)
        · exact hc he.symm
        · exact ih h he

theorem updateWatchList_asins (asin : String) (thr : Option ℚ) (nm : Option String)
    (ws : List Watch) :
    ((updateWatchList asin thr nm ws).1).map Watch.asin = ws.map Watch.asin := by
  induction ws with
  | nil => rfl
  | cons w rest ih =>
      by_cases h : w.asin = asin
      · simp only [updateWatchList, if_pos h, List.map_cons]
      · simp only [updateWatchList, if_neg h, List.map_cons]
        rw [ih]

theorem updateWatchList_not_found (asin : String) (thr : Option ℚ) (nm : Option String)
    (ws : List Watch) (h : (updateWatchList asin thr nm ws).2 = false) :
    asin ∉ ws.map Watch.asin := by
  induction ws with
  | nil => simp
  | cons w rest ih =>
      by_cases hc : w.asin = asin
      · simp only [updateWatchList, if_pos hc] at h
        exact absurd h (by decide)
      · simp only [updateWatchList, if_neg hc] at h
        rw [List.map_cons, List.mem_cons]
        rintro (he | he)
        · exact hc he.symm
        · exact ih h he

theorem ensure_watch_wf (chat : Int) (asin : String) (nm : Option String)
    (st : StoreState) (hwf : StateWF st) : StateWF (ensure_watch chat asin nm st) := by
  unfold ensure_watch
  apply mapChat_wf _ _ _ (setdefaultChat_wf chat st hwf)
  intro ws hn
  dsimp only
  split_ifs with h
  · rw [ensureList_asins]
    exact hn
  · rw [List.map_append, List.nodup_append]
    refine ⟨by rw [ensureList_asins]; exact hn, by simp, ?_⟩
    intro a ha hb
    rw [List.map_singleton, List.mem_singleton] at hb
    rw [ensureList_asins] at ha
    rw [hb] at ha
    exact ensureList_not_found asin nm ws (by simpa using h) ha

theorem set_or_update_watch_wf (chat : Int) (asin : String) (thr : Option ℚ)
    (nm : Option String) (st : StoreState) (hwf : StateWF st) :
    StateWF (set_or_update_watch chat asin thr nm st) := by
  unfold set_or_update_watch
  apply mapChat_wf _ _ _ (setdefaultChat_wf chat st hwf)
  intro ws hn
  dsimp only
  split_ifs with h
  · rw [updateWatchList_asins]
    exact hn
  · rw [List.map_append, List.nodup_append]
    refine ⟨by rw [updateWatchList_asins]; exact hn, by simp, ?_⟩
    intro a ha hb
    rw [List.map_singleton, List.mem_singleton] at hb
    rw [updateWatchList_asins] at ha
    rw [hb] at ha
    exact updateWatchList_not_found asin thr nm ws (by simpa using h) ha

theorem lookupChat_asins_nodup (st : StoreState) (chat : Int) (hwf : StateWF st) :
    ((lookupChat st chat).map Watch.asin).Nodup := by
  unfold lookupChat lookupChat?
  cases hf : st.find? (fun e => e.1 == chat) with
  | none => simp
  | some e =>
      exact hwf.2 e (List.mem_of_find?_eq_some hf)

theorem delete_watch_wf (chat : Int) (asin : String) (st : StoreState)
    (hwf : StateWF st) : StateWF (delete_watch chat asin st) := by
  show StateWF (dictInsert chat ((lookupChat st chat).filter (fun w => w.asin ≠ asin)) st)
  apply dictInsert_wf chat _ st hwf
  have hn := lookupChat_asins_nodup st chat hwf
  exact List.Nodup.sublist
    (List.Sublist.map Watch.asin (List.filter_sublist (lookupChat st chat))) hn

theorem load_state_foldl_wf (raw : RawDoc) (acc : StoreState) (hacc : StateWF acc)
    (hv : ∀ e ∈ raw, ((e.2).map RawWatch.asin).Nodup) :
    StateWF (raw.foldl (fun acc e => dictInsert e.1 (e.2.map normWatch) acc) acc) := by
  induction raw generalizing acc with
  | nil => exact hacc
  | cons e rest ih =>
      rw [List.foldl_cons]
      apply ih
      · apply dictInsert_wf _ _ _ hacc
        rw [List.map_map]
        have : (Watch.asin ∘ normWatch) = RawWatch.asin := by
          funext r
          rfl
        rw [this]
        exact hv e (List.mem_cons_self e rest)
      · exact fun e' he' => hv e' (List.mem_cons_of_mem e he')

/-- C9: the store invariant — at most one watch per `(chat_id, asin)` pair,
with chat keys unique — is preserved by `ensure_watch`,
`set_or_update_watch`, the delete handler, and holds after `load_state`
whenever each raw chat's list has no duplicated asin (the file written by
`save_state` from a well-formed store always does). -/
theorem watch_identity_preserved (st : StoreState) (raw : RawDoc) (chat : Int)
    (asin : String) (thr : Option ℚ) (nm : Option String) :
    (StateWF st → StateWF (ensure_watch chat asin nm st))
    ∧ (StateWF st → StateWF (set_or_update_watch chat asin thr nm st))
    ∧ (StateWF st → StateWF (delete_watch chat asin st))
    ∧ ((∀ e ∈ raw, ((e.2).map RawWatch.asin).Nodup) → StateWF (load_state raw)) :=
  ⟨fun h => ensure_watch_wf chat asin nm st h,
   fun h => set_or_update_watch_wf chat asin thr nm st h,
   fun h => delete_watch_wf chat asin st h,
   fun h => load_state_foldl_wf raw [] ⟨List.nodup_nil, by simp⟩ h⟩

/-- C9 witness: a two-watch store stays well-formed across an upsert of a
third asin. -/
theorem watch_identity_preserved_witness :
    StateWF (set_or_update_watch 1 "C0" (some 20) none
      [(1, [{ asin := "A0", name := "", threshold := none, last_notified_price := none,
              last_notified_ts := 0, last_checked_price := none, last_checked_ts := 0 },
            { asin := "B0", name := "", threshold := some 10, last_notified_price := none,
              last_notified_ts := 0, last_checked_price := none, last_checked_ts := 0 }])]) :=
  (watch_identity_preserved
    [(1, [{ asin := "A0", name := "", threshold := none, last_notified_price := none,
            last_notified_ts := 0, last_checked_price := none, last_checked_ts := 0 },
          { asin := "B0", name := "", threshold := some 10, last_notified_price := none,
            last_notified_ts := 0, last_checked_price := none, last_checked_ts := 0 }])]
    [] 1 "C0" (some 20) none).2.1
    ⟨by simp [StateWF], by
      intro e he
      simp only [List.mem_singleton] at he
      subst he
      simp⟩

/-! ## C10 — coherence of the parsed Keepa window statistics -/

theorem keepa_price_to_eur_spec (o : Option ℤ) (c : ℚ)
    (h : keepa_price_to_eur o = some c) : ∃ v : ℤ, 1 ≤ v ∧ c = (v : ℚ)/100 := by
  cases o with
  | none => simp [keepa_price_to_eur] at h
  | some v =>
      rw [show keepa_price_to_eur (some v)
          = if v ≤ 0 then none else some (round2 ((v:ℚ)/100)) from rfl] at h
      split_ifs at h with hv
      have hv' : 1 ≤ v := by omega
      refine ⟨v, hv', ?_⟩
      have hfix := round2_fix ((v:ℚ)/100) v (by field_simp)
      have h' := Option.some_inj.mp h
      rw [← h', hfix]

theorem coherence_fixups_ordered (series : String) (cur mn avv mxx : ℚ)
    (st : KeepaStats90) (hv : ∃ v : ℤ, 1 ≤ v ∧ cur = (v : ℚ)/100)
    (h : coherence_fixups series cur mn avv mxx = .ok st) :
    st.min90 ≤ st.avg90 ∧ st.avg90 ≤ st.max90 ∧ 0 < st.current := by
  rcases hv with ⟨v, hv1, hcur⟩
  subst hcur
  have hvpos : (0:ℚ) < (v:ℚ)/100 := by
    have hc : (0:ℚ) < (v:ℚ) := by exact_mod_cast (by omega : (0:ℤ) < v)
    exact div_pos hc (by norm_num)
  simp only [coherence_fixups] at h
  rw [if_neg (not_le.mpr hvpos)] at h
  obtain rfl := Except.ok.inj h
  refine ⟨round2_mono ?_, round2_mono ?_, ?_⟩
  · split_ifs with h1
    · exact le_rfl
    · exact not_lt.mp h1
  · split_ifs <;> first | exact le_rfl | (rename_i hx; exact not_lt.mp hx)
  · rw [round2_fix ((v:ℚ)/100) v (by field_simp)]
    exact hvpos

/-- C10: whenever `_pick_consistent_series` returns normally, the parsed
window statistics are ordered — `min90 ≤ avg90 ≤ max90` — and the current
price is strictly positive, for every raw stats input. -/
theorem pick_consistent_series_ordered (stats : KeepaStatsRaw) (st : KeepaStats90)
    (h : pick_consistent_series stats = .ok st) :
    st.min90 ≤ st.avg90 ∧ st.avg90 ≤ st.max90 ∧ 0 < st.current := by
  simp only [pick_consistent_series, series_value] at h
  split at h
  · exact absurd h (by simp)
  · rename_i series cur mn avv mxx heq
    split at heq
    · rename_i cur0 hc0
      obtain ⟨rfl, rfl, rfl, rfl, rfl⟩ :
          series = "NEW" ∧ cur = cur0 ∧ mn = _ ∧ avv = _ ∧ mxx = _ := by
        have := Option.some_inj.mp heq
        exact ⟨congrArg (·.1) this |>.symm, congrArg (·.2.1) this |>.symm,
          congrArg (·.2.2.1) this |>.symm, congrArg (·.2.2.2.1) this |>.symm,
          congrArg (·.2.2.2.2) this |>.symm⟩
      exact coherence_fixups_ordered _ _ _ _ _ _ (keepa_price_to_eur_spec _ _ hc0) h
    · split at heq
      · rename_i cur0 hc0
        obtain ⟨rfl, rfl, rfl, rfl, rfl⟩ :
            series = "AMAZON" ∧ cur = cur0 ∧ mn = _ ∧ avv = _ ∧ mxx = _ := by
          have := Option.some_inj.mp heq
          exact ⟨congrArg (·.1) this |>.symm, congrArg (·.2.1) this |>.symm,
            congrArg (·.2.2.1) this |>.symm, congrArg (·.2.2.2.1) this |>.symm,
            congrArg (·.2.2.2.2) this |>.symm⟩
        exact coherence_fixups_ordered _ _ _ _ _ _ (keepa_price_to_eur_spec _ _ hc0) h
      · exact absurd heq (by simp)

/-- C10 witness: a NEW-series response with current 12.00€, min 9.00€,
avg 10.00€, max 15.00€ parses successfully and is ordered with a positive
current price. -/
theorem pick_consistent_series_ordered_witness :
    (9:ℚ) ≤ 10 ∧ (10:ℚ) ≤ 15 ∧ (0:ℚ) < 12 := by
  have r1 : round2 ((1200:ℚ)/100) = 12 := by
    rw [round2_fix _ 1200 (by norm_num)]
    norm_num
  have r2 : round2 ((900:ℚ)/100) = 9 := by
    rw [round2_fix _ 900 (by norm_num)]
    norm_num
  have r3 : round2 ((1000:ℚ)/100) = 10 := by
    rw [round2_fix _ 1000 (by norm_num)]
    norm_num
  have r4 : round2 ((1500:ℚ)/100) = 15 := by
    rw [round2_fix _ 1500 (by norm_num)]
    norm_num
  have r5 : round2 (12:ℚ) = 12 := round2_fix _ 1200 (by norm_num)
  have r6 : round2 (9:ℚ) = 9 := round2_fix _ 900 (by norm_num)
  have r7 : round2 (10:ℚ) = 10 := round2_fix _ 1000 (by norm_num)
  have r8 : round2 (15:ℚ) = 15 := round2_fix _ 1500 (by norm_num)
  have hpick : pick_consistent_series
      { current := [none, some 1200], minArr := [none, some 900],
        avgArr := [none, some 1000], maxArr := [none, some 1500] }
      = .ok { current := 12, min90 := 9, avg90 := 10, max90 := 15, series := "NEW" } := by
    simp only [pick_consistent_series, series_value, safeGet, coherence_fixups,
      keepa_price_to_eur]
    norm_num [r1, r2, r3, r4, r5, r6, r7, r8]
  exact pick_consistent_series_ordered
    { current := [none, some 1200], minArr := [none, some 900],
      avgArr := [none, some 1000], maxArr := [none, some 1500] }
    { current := 12, min90 := 9, avg90 := 10, max90 := 15, series := "NEW" } hpick

end PriceBot
